import Mathlib

/-!
Verification of the split-learning trainer
(`src/ImageClassification_Task/ic_trainer_running.py` and
`src/utils/random_clients_generator.py`) against its specification.

Parameter states are modelled as ordered name/tensor association lists over ℚ;
the forward evaluation of the neural segments (whose module files are not part
of the embedded sources) appears only as oracle inputs.
-/

namespace ESL

/-- A parameter tensor: its shape and the flattened data, over ℚ. -/
structure Tensor where
  shape : List Nat
  data : List ℚ
deriving DecidableEq, Repr

/-- A parameter-state snapshot (a `state_dict`): ordered name/tensor pairs. -/
abbrev StateDict := List (String × Tensor)

/-- Errors of the weight-merge function (spec section 4.4 / 7). -/
inductive MergeError where
  | ShapeMismatch
  | EmptyInput
deriving DecidableEq, Repr

/-- Look a parameter name up in a state snapshot. -/
def lookupTensor (sd : StateDict) (name : String) : Option Tensor :=
  (sd.find? (fun p => p.1 == name)).map (fun p => p.2)

/-- Parameter names present in every input state (the names the merge fuses). -/
def sharedNames (states : List StateDict) : List String :=
  match states with
  | [] => []
  | s0 :: rest =>
    s0.filterMap (fun p =>
      if rest.all (fun s => (lookupTensor s p.1).isSome) then some p.1 else none)

/-- All states that hold parameter `n` agree on its shape. -/
def shapesAgree (states : List StateDict) (n : String) : Bool :=
  match states.filterMap (fun s => lookupTensor s n) with
  | [] => true
  | t0 :: ts => ts.all (fun t => t.shape == t0.shape)

/-- The sample-count-weighted average of parameter `n` across the input states. -/
def fuseAt (states : List StateDict) (weights : List Nat) (n : String) : Tensor :=
  match states with
  | [] => { shape := [], data := [] }
  | s0 :: _ =>
    match lookupTensor s0 n with
    | none => { shape := [], data := [] }
    | some t0 =>
      let total : ℚ := weights.sum
      let vals := (List.zip states weights).filterMap
        (fun p => (lookupTensor p.1 n).map (fun t => (t, (p.2 : ℚ))))
      { shape := t0.shape,
        data := (List.range t0.data.length).map (fun j =>
          (vals.foldl (fun a q => a + q.2 * q.1.data.getD j 0) 0) / total) }

/-- Modelled from the spec: the weight-merge function `merge_weights` is imported
from `utils.merge`, a module not present under src; per spec section 4.4 it is a
pure function computing, for every parameter name present in all input states,
the weighted average `sum(state_i[name] * weight_i) / sum(weight_i)`, failing
with `ShapeMismatch` when two input states disagree on a parameter's shape and
with `EmptyInput` when given zero states or all-zero weights. -/
def merge_weights (states : List StateDict) (weights : List Nat) :
    Except MergeError StateDict :=
  match states with
  | [] => .error .EmptyInput
  | _ :: _ =>
    if weights.sum = 0 then .error .EmptyInput
    else if (sharedNames states).all (fun n => shapesAgree states n) then
      .ok ((sharedNames states).map (fun n => (n, fuseAt states weights n)))
    else .error .ShapeMismatch

/-- The per-participant slice of `ICTrainer` state that `merge_model_weights`
reads and writes: the client-side back model state, the server-copy center_back
state, and the client's train-dataset length
(`ic_trainer_running.py` lines 246-294). -/
structure MergeSlice where
  id : String
  train_len : Nat
  back_state : StateDict
  center_back_state : StateDict
deriving DecidableEq, Repr

/-- `ICTrainer.merge_model_weights` (`ic_trainer_running.py` lines 235-294).
The center_back pool is collected from every server copy, weighted by
`len(train_dataset) * kv_factor`, merged and redistributed to every server copy
unconditionally; the back pool is collected, merged (weighted by raw
`len(train_dataset)`) and redistributed only when `personalization_mode` is
false.  Both merge-and-redistribute blocks sit inside `try/except Exception`
handlers (lines 258-267 and 282-291) that log and fall through, so a merge
failure leaves that pool's states unchanged and execution continues.  The
per-participant collection loops also carry a `try/except`; collection
(`deepcopy` of a `state_dict` and a `len`) cannot fail in this model. -/
def merge_model_weights (kv_factor : Nat) (personalization_mode : Bool)
    (st : List MergeSlice) : List MergeSlice :=
  let params := st.map (fun p => p.center_back_state)
  let sample_lens := st.map (fun p => p.train_len * kv_factor)
  let st1 :=
    match merge_weights params sample_lens with
    | .ok w_glob => st.map (fun p => { p with center_back_state := w_glob })
    | .error _ => st
  if personalization_mode then st1
  else
    let params2 := st1.map (fun p => p.back_state)
    let sample_lens2 := st1.map (fun p => p.train_len)
    match merge_weights params2 sample_lens2 with
    | .ok w_glob_cb => st1.map (fun p => { p with back_state := w_glob_cb })
    | .error _ => st1

/-- A one-element scalar tensor. -/
def scalarT (x : ℚ) : Tensor := { shape := [1], data := [x] }

/-- Two participants with distinct scalar back and center_back parameters,
equal sample counts. -/
def exSt : List MergeSlice :=
  [ { id := "aaaa", train_len := 1,
      back_state := [("b", scalarT 0)], center_back_state := [("c", scalarT 0)] },
    { id := "bbbb", train_len := 1,
      back_state := [("b", scalarT 2)], center_back_state := [("c", scalarT 2)] } ]

/-- Two participants whose center_back states disagree on the shape of
parameter `"c"` (so the center merge fails) while their back states have
matching shapes (so the back merge succeeds). -/
def exSt2 : List MergeSlice :=
  [ { id := "cccc", train_len := 1,
      back_state := [("b", scalarT 0)],
      center_back_state := [("c", { shape := [1], data := [0] })] },
    { id := "dddd", train_len := 1,
      back_state := [("b", scalarT 2)],
      center_back_state := [("c", { shape := [2], data := [0, 0] })] } ]

/-- C1, counterexample: in the personalization state (`personalization_mode`
set), `merge_model_weights` still fuses the center_back pool (here the two
distinct center_back states are replaced by their average, so they were not
excluded), while the back states are left untouched (back fusion does not
continue) — the opposite of the claim. -/
theorem C1_counterexample :
    (merge_model_weights 1 true exSt).map (fun p => p.center_back_state)
        ≠ exSt.map (fun p => p.center_back_state)
    ∧ (merge_model_weights 1 true exSt).map (fun p => p.back_state)
        = exSt.map (fun p => p.back_state) := by
  constructor <;>
    simp [merge_model_weights, merge_weights, sharedNames, shapesAgree, fuseAt,
      lookupTensor, exSt, scalarT, List.range_succ]

/-- C1, amended: once the run enters the personalization state, every
subsequent invocation of `merge_model_weights` excludes all back states from
the fusion pool (client-side back fusion is disabled for the remainder of the
run), while fusion of the center_back states continues: whenever the
center_back merge succeeds, every server copy receives the fused state. -/
theorem C1_personalization_merge (kv_factor : Nat) (st : List MergeSlice)
    (w : StateDict)
    (h : merge_weights (st.map (fun p => p.center_back_state))
          (st.map (fun p => p.train_len * kv_factor)) = .ok w) :
    (merge_model_weights kv_factor true st).map (fun p => p.back_state)
        = st.map (fun p => p.back_state)
    ∧ ∀ p ∈ merge_model_weights kv_factor true st, p.center_back_state = w := by
  simp only [merge_model_weights, h]
  simp

/-- Witness for C1: the amended statement at the concrete two-participant
state `exSt`, whose fused center_back state is the scalar 1. -/
theorem C1_witness :
    (merge_model_weights 1 true exSt).map (fun p => p.back_state)
        = exSt.map (fun p => p.back_state)
    ∧ ∀ p ∈ merge_model_weights 1 true exSt,
        p.center_back_state = [("c", scalarT 1)] :=
  C1_personalization_merge 1 exSt [("c", scalarT 1)]
    (by simp [merge_weights, sharedNames, shapesAgree, fuseAt, lookupTensor,
          exSt, scalarT, List.range_succ])

/-- C2, counterexample: at a state whose center_back shapes disagree, the
weight-merge function fails with `ShapeMismatch`, yet `merge_model_weights`
does not propagate the failure: it produces a successor state (the center_back
pool left unchanged) and even continues on to fuse and redistribute the back
pool — the failure is caught locally instead of aborting the run. -/
theorem C2_counterexample :
    merge_weights (exSt2.map (fun p => p.center_back_state))
        (exSt2.map (fun p => p.train_len * 1)) = .error .ShapeMismatch
    ∧ (merge_model_weights 1 false exSt2).map (fun p => p.center_back_state)
        = exSt2.map (fun p => p.center_back_state)
    ∧ (merge_model_weights 1 false exSt2).map (fun p => p.back_state)
        ≠ exSt2.map (fun p => p.back_state) := by
  refine ⟨?_, ?_, ?_⟩ <;>
    simp [merge_model_weights, merge_weights, sharedNames, shapesAgree, fuseAt,
      lookupTensor, exSt2, scalarT, List.range_succ]

/-- C2, amended: a failure raised by the weight-merge function during
`merge_model_weights` is caught locally by the surrounding exception handler:
the failing pool's states are left unchanged and execution continues — in
particular, after a failed center_back merge the back pool is still merged and
redistributed when not in personalization mode. -/
theorem C2_merge_failure_is_caught (kv_factor : Nat) (pm : Bool)
    (st : List MergeSlice) (e : MergeError)
    (h : merge_weights (st.map (fun p => p.center_back_state))
          (st.map (fun p => p.train_len * kv_factor)) = .error e) :
    (merge_model_weights kv_factor pm st).map (fun p => p.center_back_state)
        = st.map (fun p => p.center_back_state)
    ∧ (pm = false → ∀ w,
        merge_weights (st.map (fun p => p.back_state))
            (st.map (fun p => p.train_len)) = .ok w →
        (merge_model_weights kv_factor pm st).map (fun p => p.back_state)
          = st.map (fun _ => w)) := by
  simp only [merge_model_weights, h]
  cases pm with
  | true => simp
  | false =>
    refine ⟨?_, ?_⟩
    · cases h2 : merge_weights (st.map (fun p => p.back_state))
          (st.map (fun p => p.train_len)) <;> simp [h2]
    · intro _ w h2
      simp [h2, Function.comp_def, List.map_const']

/-- Witness for C2: the amended statement at the concrete state `exSt2`: the
center merge fails with `ShapeMismatch` and is swallowed, the back merge still
runs and installs the fused back state (the scalar 1) everywhere. -/
theorem C2_witness :
    (merge_model_weights 1 false exSt2).map (fun p => p.center_back_state)
        = exSt2.map (fun p => p.center_back_state)
    ∧ (merge_model_weights 1 false exSt2).map (fun p => p.back_state)
        = exSt2.map (fun _ => [("b", scalarT 1)]) :=
  ⟨(C2_merge_failure_is_caught 1 false exSt2 .ShapeMismatch
      (by simp [merge_weights, sharedNames, shapesAgree, fuseAt, lookupTensor,
            exSt2, scalarT, List.range_succ])).1,
   (C2_merge_failure_is_caught 1 false exSt2 .ShapeMismatch
      (by simp [merge_weights, sharedNames, shapesAgree, fuseAt, lookupTensor,
            exSt2, scalarT, List.range_succ])).2 rfl [("b", scalarT 1)]
      (by simp [merge_weights, sharedNames, shapesAgree, fuseAt, lookupTensor,
            exSt2, scalarT, List.range_succ])⟩

/-- The operations the trainer can perform inside one iteration of a train or
test epoch, in source order. -/
inductive Op where
  | forward_front_key_value
  | forward_front_key_value_test
  | forward_center_front
  | forward_center_front_test
  | forward_center_back
  | forward_back
  | calculate_loss
  | loss_backward
  | backward_center
  | step_back
  | zero_grad_back
  | center_optimizer_step
  | center_optimizer_zero_grad
  | calculate_metric
deriving DecidableEq, Repr

/-- The body of the per-iteration training loop of `ICTrainer.train_one_epoch`
(`ic_trainer_running.py` lines 434-458), as the ordered list of operations it
performs.  The body is a fixed statement sequence: it never consults the
server copy's freeze flag, so the `frozen` argument is ignored. -/
def train_iteration_ops (_frozen : Bool) : List Op :=
  [ .forward_front_key_value, .forward_center_front, .forward_center_back,
    .forward_back, .calculate_loss, .loss_backward, .backward_center,
    .step_back, .zero_grad_back, .center_optimizer_step,
    .center_optimizer_zero_grad, .calculate_metric ]

/-- C3, counterexample: in a training iteration for a server copy whose freeze
flag is set (personalization phase), the center_back optimizer step and
gradient clear are still invoked — they are not skipped. -/
theorem C3_counterexample :
    Op.center_optimizer_step ∈ train_iteration_ops true
    ∧ Op.center_optimizer_zero_grad ∈ train_iteration_ops true := by
  decide

/-- C3, amended: the training loop invokes the center_back optimizer step and
gradient clear in every training iteration regardless of the server copy's
freeze flag; the calls are unconditional in the loop body. -/
theorem C3_center_step_unconditional (frozen : Bool) :
    Op.center_optimizer_step ∈ train_iteration_ops frozen
    ∧ Op.center_optimizer_zero_grad ∈ train_iteration_ops frozen := by
  cases frozen <;> decide

/-- Events emitted by `ICTrainer.fit`. -/
inductive FitEvent where
  | populate
  | personalizeAt (epoch : Nat)
  | trainEpoch (epoch : Nat)
  | testEpoch (epoch : Nat)
  | runInference
deriving DecidableEq, Repr

/-- The body of the epoch loop of `ICTrainer.fit`
(`ic_trainer_running.py` lines 786-820) as the list of events of epoch
`epoch`: an in-loop key-value-store population when the refresh rate is
nonzero and divides the epoch, the personalization transition when enabled at
the configured epoch, then the training epoch, the testing epoch and the
inference pass. -/
def fit_epoch_events (kv_refresh_rate : Nat) (personalize_flag : Bool)
    (p_epoch epoch : Nat) : List FitEvent :=
  (if kv_refresh_rate ≠ 0 ∧ epoch % kv_refresh_rate = 0
    then [.populate] else [])
  ++ (if personalize_flag ∧ epoch = p_epoch
    then [.personalizeAt epoch] else [])
  ++ [.trainEpoch epoch, .testEpoch epoch, .runInference]

/-- `ICTrainer.fit` (`ic_trainer_running.py` lines 764-820) as an event trace:
one pre-loop key-value-store population when the refresh rate is zero
(refresh disabled), followed by the epoch loop. -/
def fit_events (kv_refresh_rate : Nat) (personalize_flag : Bool)
    (p_epoch epochs : Nat) : List FitEvent :=
  (if kv_refresh_rate = 0 then [.populate] else [])
  ++ (List.range epochs).flatMap
      (fit_epoch_events kv_refresh_rate personalize_flag p_epoch)

/-- The epoch-loop blocks contain no population event when refresh is
disabled. -/
lemma populate_not_mem_epoch_events_of_rate_zero (pf : Bool) (p_e e : Nat) :
    FitEvent.populate ∉ fit_epoch_events 0 pf p_e e := by
  simp only [fit_epoch_events]
  intro hmem
  rcases List.mem_append.1 hmem with h | h
  · rcases List.mem_append.1 h with h | h
    · simp at h
    · by_cases hc : pf = true ∧ e = p_e <;> simp [hc] at h
  · simp at h

/-- C4: the key-value store population schedule of `fit`.  With
`kv_refresh_rate = 0` the store is populated exactly once, before any training
epoch; with a nonzero rate there is no pre-loop population and epoch `e`'s
block populates the store, before that epoch's training, exactly when
`e % kv_refresh_rate = 0` (epoch 0, the run start, always qualifies). -/
theorem C4_populate_schedule (r : Nat) (pf : Bool) (p_e epochs : Nat) :
    (r = 0 →
      (fit_events r pf p_e epochs).count FitEvent.populate = 1
      ∧ ∃ l, fit_events r pf p_e epochs = FitEvent.populate :: l
          ∧ FitEvent.populate ∉ l)
    ∧ (r ≠ 0 →
      fit_events r pf p_e epochs
          = (List.range epochs).flatMap (fit_epoch_events r pf p_e)
      ∧ ∀ e, (FitEvent.populate ∈ fit_epoch_events r pf p_e e ↔ e % r = 0)
      ∧ (e % r = 0 → ∃ l, fit_epoch_events r pf p_e e = FitEvent.populate :: l
            ∧ FitEvent.trainEpoch e ∈ l ∧ FitEvent.populate ∉ l)) := by
  constructor
  · rintro rfl
    have hblocks : FitEvent.populate ∉
        (List.range epochs).flatMap (fit_epoch_events 0 pf p_e) := by
      intro hmem
      rcases List.mem_flatMap.1 hmem with ⟨e, _, he⟩
      exact populate_not_mem_epoch_events_of_rate_zero pf p_e e he
    have htrace : fit_events 0 pf p_e epochs
        = FitEvent.populate ::
            (List.range epochs).flatMap (fit_epoch_events 0 pf p_e) := by
      simp [fit_events]
    refine ⟨?_, _, htrace, hblocks⟩
    rw [htrace, List.count_cons_self, List.count_eq_zero.2 hblocks]
  · intro hr
    refine ⟨by simp [fit_events, hr], fun e => ⟨?_, ?_⟩⟩
    · simp only [fit_epoch_events]
      constructor
      · intro hmem
        rcases List.mem_append.1 hmem with h | h
        · rcases List.mem_append.1 h with h | h
          · by_cases hc : r ≠ 0 ∧ e % r = 0
            · exact hc.2
            · simp [hc] at h
          · by_cases hc : pf = true ∧ e = p_e <;> simp [hc] at h
        · simp at h
      · intro he
        apply List.mem_append.2
        left
        apply List.mem_append.2
        left
        simp [hr, he]
    · intro he
      refine ⟨(if pf = true ∧ e = p_e then [.personalizeAt e] else [])
          ++ [.trainEpoch e, .testEpoch e, .runInference], ?_, ?_, ?_⟩
      · simp [fit_epoch_events, hr, he]
      · apply List.mem_append.2
        right
        simp
      · intro hmem
        rcases List.mem_append.1 hmem with h | h
        · by_cases hc : pf = true ∧ e = p_e <;> simp [hc] at h
        · simp at h

/-- Witness for C4: with refresh disabled the three-epoch trace has exactly
one population event at its head; with rate 2, epoch 2's block populates and
the population precedes that epoch's training. -/
theorem C4_witness :
    ((fit_events 0 false 0 3).count FitEvent.populate = 1)
    ∧ (FitEvent.populate ∈ fit_epoch_events 2 false 0 2 ↔ 2 % 2 = 0) :=
  ⟨((C4_populate_schedule 0 false 0 3).1 rfl).1,
   (((C4_populate_schedule 2 false 0 3).2 (by decide)).2 2).1⟩

/-- The number of forward iterations the train-mode population pass performs
per participant: `range(client.num_iterations * self.args.kv_factor)` in
`ICTrainer.store_forward_mappings_kv` (`ic_trainer_running.py` line 351),
where `num_iterations` is the number of train batches (line 345). -/
def train_populate_iters (num_train_batches kv_factor : Nat) : Nat :=
  num_train_batches * kv_factor

/-- The number of forward iterations the test-mode population pass performs
per participant: `range(client.num_test_iterations)` in
`ICTrainer.store_forward_mappings_kv` (`ic_trainer_running.py` line 375),
where `num_test_iterations` is the number of test batches (line 368); the
count is not multiplied by `kv_factor`. -/
def test_populate_iters (num_test_batches : Nat) (_kv_factor : Nat) : Nat :=
  num_test_batches

/-- A per-participant activation cache: association list from sample key to
the cached frozen-pipeline output (values abstracted to ℚ). -/
abbrev Cache := List (Nat × ℚ)

/-- Modelled from the spec (section 4.1): `clear()` of the ActivationCache held
by Client/ConnectedClient (`ic_client.py` / `ic_server.py` are not under src)
empties the cache. -/
def cache_clear (_c : Cache) : Cache := []

/-- Modelled from the spec (section 4.1): `put(key, value)` inserts or
overwrites, with no error on overwrite (refresh semantics). -/
def cache_put (c : Cache) (k : Nat) (v : ℚ) : Cache :=
  (k, v) :: c.filter (fun p => p.1 != k)

/-- Modelled from the spec (sections 4.1 and 4.5): one cache population pass
clears the cache and then performs the pass's puts in order. -/
def populate_pass (c : Cache) (entries : List (Nat × ℚ)) : Cache :=
  entries.foldl (fun acc e => cache_put acc e.1 e.2) (cache_clear c)

/-- Every entry of a put-fold comes from the accumulator or from the puts. -/
lemma mem_foldl_put (entries : List (Nat × ℚ)) :
    ∀ (acc : Cache) (p : Nat × ℚ),
      p ∈ entries.foldl (fun acc e => cache_put acc e.1 e.2) acc →
      p ∈ acc ∨ p ∈ entries := by
  induction entries with
  | nil => intro acc p h; exact Or.inl h
  | cons e es ih =>
    intro acc p h
    rcases ih (cache_put acc e.1 e.2) p h with h2 | h2
    · rcases List.mem_cons.1 h2 with h3 | h3
      · right
        rw [h3]
        exact List.mem_cons_self _ _
      · exact Or.inl (List.mem_of_mem_filter h3)
    · exact Or.inr (List.mem_cons_of_mem _ h2)

/-- C5, counterexample: with `kv_factor = 2` and 3 test batches, the test-mode
population pass performs 3 forward iterations, not `3 * 2`: the test pass is
not scaled by the refresh factor. -/
theorem C5_counterexample :
    test_populate_iters 3 2 = 3 ∧ test_populate_iters 3 2 ≠ 3 * 2 := by
  decide

/-- C5, amended: each cache population pass clears the cache and repopulates
it from its own puts only (no stale entry survives); the train population
performs `kv_factor` times the number of train batches forward iterations,
while the test population performs exactly the number of test batches
iterations, independent of `kv_factor`. -/
theorem C5_population_pass (ntr nte f : Nat) (c : Cache)
    (entries : List (Nat × ℚ)) :
    train_populate_iters ntr f = ntr * f
    ∧ test_populate_iters nte f = nte
    ∧ ∀ p ∈ populate_pass c entries, p ∈ entries := by
  refine ⟨rfl, rfl, fun p hp => ?_⟩
  rcases mem_foldl_put entries (cache_clear c) p hp with h | h
  · simp [cache_clear] at h
  · exact h

/-- Witness for C5: a population pass over a cache holding a stale entry for
key 0; the surviving entry for key 0 is the freshly put one. -/
theorem C5_witness :
    train_populate_iters 4 2 = 4 * 2 ∧ test_populate_iters 4 2 = 4
    ∧ ((0, (1 : ℚ)) ∈ [((0 : Nat), (1 : ℚ)), (1, 2)]) :=
  ⟨(C5_population_pass 4 4 2 [(0, 5)] [(0, 1), (1, 2)]).1,
   (C5_population_pass 4 4 2 [(0, 5)] [(0, 1), (1, 2)]).2.1,
   (C5_population_pass 4 4 2 [(0, 5)] [(0, 1), (1, 2)]).2.2 (0, 1)
     (by simp [populate_pass, cache_put, cache_clear])⟩

/-- Set the last element of a list: the Python pattern `xs[-1] = v`
(no effect on an empty list). -/
def setLast : List ℚ → ℚ → List ℚ
  | [], _ => []
  | [_], v => [v]
  | x :: y :: rest, v => x :: setLast (y :: rest) v

/-- The last element of a list, 0 when empty (the accumulators start at 0). -/
def lastD (xs : List ℚ) : ℚ := xs.getLastD 0

/-- The per-epoch metric bookkeeping pattern of `ICTrainer`
(`ic_trainer_running.py`): `create_iters` appends 0 to the per-client f1 list
(lines 305 and 316) and the epoch appends 0 to the overall list (lines 423 and
516); each iteration adds its score to the last entry (lines 456, 471, 557,
573); finalization divides the last entry by the count (lines 465, 488, 565,
583). -/
def metric_epoch_update (prev scores : List ℚ) (divisor : Nat) : List ℚ :=
  let l0 := prev ++ [0]
  let l1 := scores.foldl (fun acc s => setLast acc (lastD acc + s)) l0
  setLast l1 (lastD l1 / (divisor : ℚ))

lemma setLast_append (xs : List ℚ) (a v : ℚ) :
    setLast (xs ++ [a]) v = xs ++ [v] := by
  induction xs with
  | nil => rfl
  | cons x xs ih =>
    cases xs with
    | nil => rfl
    | cons z zs =>
      show x :: setLast ((z :: zs) ++ [a]) v = x :: ((z :: zs) ++ [v])
      rw [ih]

lemma lastD_append (xs : List ℚ) (a : ℚ) : lastD (xs ++ [a]) = a := by
  simp [lastD]

/-- Accumulating a list of scores into the last entry adds their sum. -/
lemma foldl_accum_append (scores : List ℚ) :
    ∀ (xs : List ℚ) (a : ℚ),
      scores.foldl (fun acc s => setLast acc (lastD acc + s)) (xs ++ [a])
        = xs ++ [a + scores.sum] := by
  induction scores with
  | nil => intro xs a; simp
  | cons s ss ih =>
    intro xs a
    simp only [List.foldl_cons, lastD_append, setLast_append, ih,
      List.sum_cons, add_assoc]

/-- The per-client train epoch f1 aggregation of `ICTrainer.train_one_epoch`
(`ic_trainer_running.py` lines 421-465): a 0 is appended, the loop runs
`num_iterations` iterations each adding its f1 score, and finalization divides
by `num_iterations`.  The test epoch does the same with
`num_test_iterations = len(test_DataLoader)` as both the loop count and the
divisor (lines 529-532 and 565). -/
def client_epoch_f1 (prev : List ℚ) (num_iterations : Nat)
    (iter_f1 : Nat → ℚ) : List ℚ :=
  metric_epoch_update prev ((List.range num_iterations).map iter_f1)
    num_iterations

/-- The cross-participant epoch aggregation (`ic_trainer_running.py` lines
423, 471, 488 for training; 516, 573, 583 for testing): a 0 is appended to
`overall_f1`, each client adds its finalized epoch f1, and the last entry is
divided by `num_clients`. -/
def overall_epoch_f1 (prev : List ℚ) (client_aggs : List ℚ)
    (num_clients : Nat) : List ℚ :=
  metric_epoch_update prev client_aggs num_clients

/-- C6: for per-iteration scores `a_1..a_k` the finalized per-epoch f1
aggregate appended by the epoch equals `(sum a_i) / k`, and the
cross-participant aggregate appended to the overall list equals the sum of the
per-participant epoch aggregates divided by the number of participants; the
same bookkeeping is used by the training and the testing epoch. -/
theorem C6_epoch_metric_averaging (prev : List ℚ) (k : Nat) (iter_f1 : Nat → ℚ)
    (prevO client_aggs : List ℚ) (n : Nat) (hn : client_aggs.length = n) :
    client_epoch_f1 prev k iter_f1
        = prev ++ [((List.range k).map iter_f1).sum / (k : ℚ)]
    ∧ overall_epoch_f1 prevO client_aggs n
        = prevO ++ [client_aggs.sum / (client_aggs.length : ℚ)] := by
  subst hn
  constructor <;>
    simp only [client_epoch_f1, overall_epoch_f1, metric_epoch_update,
      foldl_accum_append, zero_add, lastD_append, setLast_append]

/-- Witness for C6: three iteration scores 1, 2, 3 give the epoch aggregate 2;
two client aggregates 2 and 4 give the cross-participant aggregate 3. -/
theorem C6_witness :
    client_epoch_f1 [] 3 (fun i => (i : ℚ) + 1)
        = [] ++ [((List.range 3).map (fun i => (i : ℚ) + 1)).sum / (3 : ℚ)]
    ∧ overall_epoch_f1 [] [2, 4] 2
        = [] ++ [([2, 4] : List ℚ).sum / (([2, 4] : List ℚ).length : ℚ)] :=
  C6_epoch_metric_averaging [] 3 (fun i => (i : ℚ) + 1) [] [2, 4] 2 rfl

/-- The per-client state a test epoch touches: the trainable parameter states
and optimizer states, the test dataloader length, and the metric accumulators
(`ic_trainer_running.py` lines 501-589). -/
structure EpochClientState where
  back_state : StateDict
  back_opt_state : StateDict
  center_back_state : StateDict
  center_opt_state : StateDict
  num_test_batches : Nat
  test_f1 : List ℚ
  test_loss : ℚ
  pred : List ℚ
  y : List ℚ
deriving DecidableEq

/-- The quantities produced by the network forward passes during testing; the
segment modules (`ImageClassification_Task.models`) are outside src, so the
per-iteration f1 scores, predictions and targets enter as oracles. -/
structure TestOracle where
  iter_f1 : String → Nat → ℚ
  preds : String → List ℚ
  targets : String → List ℚ

/-- The per-client work of `ICTrainer.test_one_epoch`
(`ic_trainer_running.py` lines 518-578): reset `pred` and `y`, run
`num_test_iterations = len(test_DataLoader)` forward iterations accumulating
the f1 score, finalize by dividing, and reset the loss accumulator; no
parameter or optimizer state is written. -/
def run_test_client (o : TestOracle) (cid : String) (c : EpochClientState) :
    EpochClientState :=
  { c with
    pred := o.preds cid,
    y := o.targets cid,
    test_f1 := client_epoch_f1 c.test_f1 c.num_test_batches (o.iter_f1 cid),
    test_loss := 0 }

/-- `ICTrainer.test_one_epoch` (`ic_trainer_running.py` lines 501-589): every
client runs its evaluative pass, then the cross-client epoch aggregate is
appended to the overall test f1 list.  The backward, optimizer-step and
weight-fusion calls present in the training epoch are absent (commented out in
the source) and the method runs under `torch.no_grad`. -/
def test_one_epoch (o : TestOracle)
    (clients : List (String × EpochClientState)) (overall_test : List ℚ)
    (num_clients : Nat) : List (String × EpochClientState) × List ℚ :=
  let clients2 := clients.map (fun p => (p.1, run_test_client o p.1 p.2))
  (clients2,
    overall_epoch_f1 overall_test (clients2.map (fun p => lastD p.2.test_f1))
      num_clients)

/-- The body of the per-iteration testing loop of `ICTrainer.test_one_epoch`
(`ic_trainer_running.py` lines 532-557): the four-segment forward sequence,
the loss and the metric; the backward/step/clear lines are commented out. -/
def test_iteration_ops : List Op :=
  [ .forward_front_key_value_test, .forward_center_front_test,
    .forward_center_back, .forward_back, .calculate_loss, .calculate_metric ]

/-- The four network segments. -/
inductive Segment where
  | front
  | center_front
  | center_back
  | back
deriving DecidableEq, Repr

/-- The network segment an operation forward-evaluates, if any. -/
def op_forward_segment : Op → Option Segment
  | .forward_front_key_value => some .front
  | .forward_front_key_value_test => some .front
  | .forward_center_front => some .center_front
  | .forward_center_front_test => some .center_front
  | .forward_center_back => some .center_back
  | .forward_back => some .back
  | _ => none

/-- C7: a testing epoch performs the same four-segment forward sequence as a
training iteration but contains no backward pass, no optimizer step and no
gradient clear, and for every participant the back and center_back parameter
states and both optimizer states are unchanged by `test_one_epoch` (so no
fusion reaches them either). -/
theorem C7_test_epoch_frame (o : TestOracle)
    (clients : List (String × EpochClientState)) (overall_test : List ℚ)
    (num_clients : Nat) :
    ((test_one_epoch o clients overall_test num_clients).1.map
        (fun p => (p.1, p.2.back_state, p.2.back_opt_state,
          p.2.center_back_state, p.2.center_opt_state)))
      = clients.map (fun p => (p.1, p.2.back_state, p.2.back_opt_state,
          p.2.center_back_state, p.2.center_opt_state))
    ∧ test_iteration_ops.filterMap op_forward_segment
        = (train_iteration_ops false).filterMap op_forward_segment
    ∧ Op.loss_backward ∉ test_iteration_ops
    ∧ Op.backward_center ∉ test_iteration_ops
    ∧ Op.step_back ∉ test_iteration_ops
    ∧ Op.zero_grad_back ∉ test_iteration_ops
    ∧ Op.center_optimizer_step ∉ test_iteration_ops
    ∧ Op.center_optimizer_zero_grad ∉ test_iteration_ops := by
  refine ⟨?_, by decide, by decide, by decide, by decide, by decide,
    by decide, by decide⟩
  simp [test_one_epoch, run_test_client, List.map_map, Function.comp_def]

/-- The 36-character alphabet from which client ids are sampled
(`random_clients_generator.py` line 7). -/
def id_alphabet : List Char := "abcdefghijklmnopqrstuvwxyz1234567890".toList

/-- `generate_random_client_ids` (`random_clients_generator.py` lines 4-8):
each id is one `random.sample(alphabet, id_len)` result joined into a string;
the randomness is modelled by the stream `draw` of sampled character lists,
one per call. -/
def generate_random_client_ids (num_clients : Nat) (draw : Nat → List Char) :
    List String :=
  (List.range num_clients).map (fun i => String.mk (draw i))

/-- Python dict assignment `d[k] = v`: overwrite when the key exists, append
otherwise. -/
def dict_insert (d : List (String × String)) (k v : String) :
    List (String × String) :=
  if d.any (fun p => p.1 == k) then
    d.map (fun p => if p.1 == k then (k, v) else p)
  else d ++ [(k, v)]

/-- `generate_random_clients` (`random_clients_generator.py` lines 11-16):
builds the clients dict keyed by the generated ids; the constructed
`Client(id)` object is modelled by its id. -/
def generate_random_clients (num_clients : Nat) (draw : Nat → List Char) :
    List (String × String) :=
  (generate_random_client_ids num_clients draw).foldl
    (fun d i => dict_insert d i i) []

/-- C8, counterexample: the two draws `['a','b','c','d']` twice are each a
legitimate `random.sample` outcome (duplicate-free, from the alphabet), yet
the two generated ids coincide and the clients mapping holds one entry, not
the requested two. -/
theorem C8_counterexample :
    (['a', 'b', 'c', 'd'].Nodup
      ∧ ∀ ch ∈ ['a', 'b', 'c', 'd'], ch ∈ id_alphabet)
    ∧ (generate_random_clients 2 (fun _ => ['a', 'b', 'c', 'd'])).length = 1
    ∧ (1 : Nat) ≠ 2 := by
  decide

/-- Inserting ids disjoint from the accumulated keys appends one entry per
id. -/
lemma foldl_dict_insert_length (ids : List String) :
    ∀ d : List (String × String), ids.Nodup →
      (∀ i ∈ ids, ∀ p ∈ d, p.1 ≠ i) →
      (ids.foldl (fun d i => dict_insert d i i) d).length
        = d.length + ids.length := by
  induction ids with
  | nil => intro d _ _; simp
  | cons i is ih =>
    intro d hnd hdisj
    have hnotin : ¬ d.any (fun p => p.1 == i) = true := by
      simp only [List.any_eq_true, beq_iff_eq]
      rintro ⟨p, hp, hpe⟩
      exact hdisj i (List.mem_cons_self _ _) p hp hpe
    have hins : dict_insert d i i = d ++ [(i, i)] := by
      simp [dict_insert, hnotin]
    rw [List.foldl_cons, hins,
      ih (d ++ [(i, i)]) (List.nodup_cons.1 hnd).2 ?_]
    · simp only [List.length_append, List.length_cons, List.length_nil]
      omega
    · intro j hj p hp
      rcases List.mem_append.1 hp with h | h
      · exact hdisj j (List.mem_cons_of_mem _ hj) p h
      · have hpi : p = (i, i) := by simpa using h
        rw [hpi]
        intro hji
        have hij : i = j := hji
        exact (List.nodup_cons.1 hnd).1 (by rw [hij]; exact hj)

/-- C8, amended: the ids are independently sampled random strings and their
pairwise distinctness is not enforced; whenever the generated id sequence is
duplicate-free, the clients mapping holds exactly the requested number of
entries (a duplicate id collapses entries instead). -/
theorem C8_unique_ids_give_full_mapping (n : Nat) (draw : Nat → List Char)
    (h : (generate_random_client_ids n draw).Nodup) :
    (generate_random_clients n draw).length = n := by
  unfold generate_random_clients
  rw [foldl_dict_insert_length _ [] h (by intro _ _ p hp; simp at hp)]
  simp [generate_random_client_ids]

/-- Witness for C8: two distinct draws give a two-entry mapping. -/
theorem C8_witness :
    (generate_random_clients 2
      (fun i => if i = 0 then ['a', 'b', 'c', 'd']
        else ['e', 'f', 'g', 'h'])).length = 2 :=
  C8_unique_ids_give_full_mapping 2
    (fun i => if i = 0 then ['a', 'b', 'c', 'd'] else ['e', 'f', 'g', 'h'])
    (by decide)

/-- `ICTrainer.inference` (`ic_trainer_running.py` lines 708-756): the
per-participant accuracies are accumulated into `avg_acc` (line 754) and the
reported cross-participant average divides the accumulated sum by the literal
10 (line 756). -/
def inference_report (accs : List ℚ) : ℚ :=
  accs.foldl (fun a x => a + x) 0 / 10

/-- C9: the final inference pass reports the cross-participant average
accuracy as the sum of the per-participant accuracies divided by the constant
10, regardless of the number of participants; for a nonzero accuracy sum that
report equals the true mean `(sum) / num_participants` exactly when there are
10 participants. -/
theorem C9_inference_divides_by_ten (accs : List ℚ) (h : accs.sum ≠ 0) :
    inference_report accs = accs.sum / 10
    ∧ (inference_report accs = accs.sum / (accs.length : ℚ)
        ↔ accs.length = 10) := by
  have hrep : inference_report accs = accs.sum / 10 := by
    simp [inference_report, List.sum_eq_foldl]
  refine ⟨hrep, ?_⟩
  rw [hrep]
  constructor
  · intro heq
    by_cases hl : accs.length = 0
    · rw [hl] at heq
      simp at heq
      exact absurd heq h
    · have hlq : ((accs.length : ℚ)) ≠ 0 := Nat.cast_ne_zero.2 hl
      have h10 : (10 : ℚ) ≠ 0 := by norm_num
      rw [div_eq_div_iff h10 hlq] at heq
      have : ((accs.length : ℚ)) = 10 := mul_left_cancel₀ h heq
      exact_mod_cast this
  · intro hl
    rw [hl]
    norm_num

/-- Witness for C9: accuracies 1 and 2 (sum 3, two participants): the report
is 3/10, which is not the true mean 3/2. -/
theorem C9_witness :
    inference_report [(1 : ℚ), 2] = ([(1 : ℚ), 2]).sum / 10
    ∧ (inference_report [(1 : ℚ), 2]
          = ([(1 : ℚ), 2]).sum / ((([(1 : ℚ), 2]).length : ℚ))
        ↔ ([(1 : ℚ), 2]).length = 10) :=
  C9_inference_divides_by_ten [1, 2] (by norm_num)

/-- The four segment models of one participant pair, plus the server copy's
center_back freeze flag. -/
structure SegmentSet where
  front : StateDict
  center_front : StateDict
  center_back : StateDict
  back : StateDict
  center_frozen : Bool
deriving DecidableEq

/-- `ICTrainer.load_best_models` (`ic_trainer_running.py` lines 680-705): for
every client id a fresh module is constructed per segment and its parameters
replaced by the state loaded from the save directory (modelled by
`disk id segment_name`); the four in-memory segment models of the client and
its server copy are then replaced by the loaded ones.  A freshly constructed
center_back model is not frozen. -/
def load_best_models (disk : String → String → StateDict)
    (st : List (String × SegmentSet)) : List (String × SegmentSet) :=
  st.map (fun p =>
    (p.1,
      { front := disk p.1 "front",
        center_front := disk p.1 "center_front",
        center_back := disk p.1 "center_back",
        back := disk p.1 "back",
        center_frozen := false }))

/-- `ICTrainer.personalize` (`ic_trainer_running.py` lines 226-233): freeze
every server copy's center_back model. -/
def personalize_all (st : List (String × SegmentSet)) :
    List (String × SegmentSet) :=
  st.map (fun p => (p.1, { p.2 with center_frozen := true }))

/-- The personalization branch of `ICTrainer.fit`
(`ic_trainer_running.py` lines 795-799): when personalization is enabled and
the epoch equals the configured threshold, set `personalization_mode`, replace
all models via `load_best_models`, then freeze via `personalize`. -/
def fit_personalization_branch (personalize_flag : Bool) (p_epoch epoch : Nat)
    (personalization_mode : Bool) (disk : String → String → StateDict)
    (st : List (String × SegmentSet)) : Bool × List (String × SegmentSet) :=
  if personalize_flag ∧ epoch = p_epoch then
    (true, personalize_all (load_best_models disk st))
  else (personalization_mode, st)

/-- C10: on the epoch at which personalization triggers, every participant's
four segment models are overwritten with the parameter states loaded from the
save directory, and only then is the freeze applied: the resulting states are
exactly the on-disk ones (frozen), independent of the in-memory trained
weights held before the transition. -/
theorem C10_personalization_loads_from_disk (p_epoch epoch : Nat) (pm : Bool)
    (disk : String → String → StateDict) (st : List (String × SegmentSet))
    (h : epoch = p_epoch) :
    (fit_personalization_branch true p_epoch epoch pm disk st).1 = true
    ∧ (fit_personalization_branch true p_epoch epoch pm disk st).2
      = st.map (fun p =>
          (p.1,
            { front := disk p.1 "front",
              center_front := disk p.1 "center_front",
              center_back := disk p.1 "center_back",
              back := disk p.1 "back",
              center_frozen := true })) := by
  subst h
  constructor
  · simp [fit_personalization_branch]
  · simp [fit_personalization_branch, personalize_all, load_best_models,
      List.map_map, Function.comp_def]

/-- A one-participant state holding in-memory trained weights distinct from
anything on disk. -/
def exPersonSt : List (String × SegmentSet) :=
  [("aaaa",
    { front := [("f", scalarT 5)], center_front := [("cf", scalarT 5)],
      center_back := [("cb", scalarT 5)], back := [("b", scalarT 5)],
      center_frozen := false })]

/-- Witness for C10: at the trigger epoch with empty on-disk states, the
in-memory weights are replaced by the disk states and frozen. -/
theorem C10_witness :
    (fit_personalization_branch true 3 3 false (fun _ _ => []) exPersonSt).1
      = true
    ∧ (fit_personalization_branch true 3 3 false (fun _ _ => []) exPersonSt).2
      = exPersonSt.map (fun p =>
          (p.1,
            { front := [], center_front := [], center_back := [], back := [],
              center_frozen := true })) :=
  C10_personalization_loads_from_disk 3 3 false (fun _ _ => []) exPersonSt rfl

end ESL
